import Mathlib

/-!
Shallow embedding of the bytepole2 virtual machine (src/main.rs).

The machine owns 256 bytes of unified memory, an 8-bit program counter and an
8-bit stack pointer.  Machine words (`u8` in the source) are modelled as `Nat`
with an explicit `% 256` at every point where the Rust `u8` type wraps.
Memory is modelled as a function `Nat → Nat`; the source's `[u8; 0x100]` array
is only ever indexed at `u8` addresses, i.e. below 256.

I/O is modelled by an explicit `IOState`: the remaining bytes of the input
stream and the bytes written to the output stream so far.  The model assumes
the byte-level view of the streams (the source reads and writes raw bytes;
its `read_line` additionally requires UTF-8, which for the ASCII programs of
this interpreter coincides with the byte view).

`Machine.step` embeds `Machine::step`.  Its Rust return type is
`io::Result<ControlFlow<()>>`; the embedding returns `StepOutcome`, where
`ok`/`err` are the `Ok`/`Err` cases of that single result channel and
`panic` records a Rust panic (`u8::wrapping_div`/`wrapping_rem` panic on a
zero divisor; a slice-length mismatch in `Machine::from` likewise panics),
which unwinds past the result channel instead of being delivered through it.
-/

structure Machine where
  mem : Nat → Nat
  pc : Nat
  stack : Nat

structure IOState where
  input : List Nat
  output : List Nat
deriving DecidableEq, Repr

/-- `ControlFlow<()>`: `Continue(())` or `Break(())`. -/
inductive StepFlow where
  | cont : StepFlow
  | brk : StepFlow
deriving DecidableEq, Repr

/-- The `io::Error` values the modelled streams can produce: `InvalidData`
(wrapping the parse error of the `i` opcode) and `UnexpectedEof`
(`read_exact` on an exhausted stream in the `:` opcode). -/
inductive IOError where
  | invalidData : IOError
  | unexpectedEof : IOError
deriving DecidableEq, Repr

/-- Everything one call of `Machine::step` can do: return `Ok(flow)` with the
new machine and stream states, return `Err(e)`, or panic (escaping the
`io::Result` channel entirely). -/
inductive StepOutcome where
  | ok : StepFlow → Machine → IOState → StepOutcome
  | err : IOError → Machine → IOState → StepOutcome
  | panic : StepOutcome

/-- Classifier following the spec's words: an outcome is delivered through
`step`'s single result channel when it is one of *continue*, *halt*, or an
I/O failure (`Ok`/`Err` of the `io::Result`); a panic escapes that channel. -/
def StepOutcome.inChannel : StepOutcome → Bool
  | StepOutcome.panic => false
  | _ => true

/-- `Machine::push`: write at the current stack address, then decrement the
stack pointer with `u8` wraparound (`wrapping_sub(1)` is `+ 255 mod 256`). -/
def Machine.push (m : Machine) (v : Nat) : Machine :=
  { m with
    mem := Function.update m.mem m.stack v
    stack := (m.stack + 255) % 256 }

/-- `Machine::pop`: increment the stack pointer with `u8` wraparound, then
read the byte at the new stack address. -/
def Machine.pop (m : Machine) : Machine × Nat :=
  ({ m with stack := (m.stack + 1) % 256 }, m.mem ((m.stack + 1) % 256))

/-- `Machine::from`: start from the all-zero machine (`pc = 0`,
`stack = 0xff`) and copy the source bytes into `mem[..len]`.  When the
source line is longer than 256 bytes the slicing `m.mem[..buf.len()]`
panics, so no machine is produced: modelled as `none`. -/
def Machine.fromBytes (buf : List Nat) : Option Machine :=
  if buf.length ≤ 256 then
    some { mem := fun i => if i < buf.length then buf.getD i 0 else 0
           pc := 0
           stack := 255 }
  else none

/-- `BufRead::read_line` on the modelled stream: consume bytes up to and
including the first newline (0x0a); at end of stream return what is left
without a newline (an empty stream yields the empty line, as `read_line`
returning `Ok(0)` does). Returns the line and the rest of the stream. -/
def readLine (s : List Nat) : List Nat × List Nat :=
  let pre := s.takeWhile (fun c => c != 10)
  match s.drop pre.length with
  | 10 :: rest => (pre ++ [10], rest)
  | rest => (pre, rest)

/-- ASCII whitespace, the ASCII part of `char::is_whitespace` used by
`str::trim`: space and the control characters 0x09–0x0d. -/
def isWsByte (c : Nat) : Bool := c == 32 || (9 ≤ c && c ≤ 13)

/-- `str::trim`: strip whitespace from both ends. -/
def trimBytes (s : List Nat) : List Nat :=
  ((s.dropWhile isWsByte).reverse.dropWhile isWsByte).reverse

/-- ASCII decimal digit `'0'..='9'`. -/
def isDigitByte (c : Nat) : Bool := 48 ≤ c && c ≤ 57

/-- Value of a string of ASCII decimal digits, most significant first. -/
def digitsVal (ds : List Nat) : Nat :=
  ds.foldl (fun acc c => acc * 10 + (c - 48)) 0

/-- `from_str_radix` strips one leading `'+'`; a leading `'-'` on an
unsigned type is left in place and then rejected as a non-digit. -/
def stripSign (s : List Nat) : List Nat :=
  match s with
  | 43 :: rest => rest
  | _ => s

/-- `str::parse::<u8>`: an optional leading `'+'`, then one or more ASCII
decimal digits whose value fits in `0..=255`; anything else (empty input,
a non-digit such as `'-'`, or overflow) is a parse error. -/
def parseU8 (s : List Nat) : Option Nat :=
  if stripSign s ≠ [] ∧ (stripSign s).all isDigitByte = true ∧
      digitsVal (stripSign s) ≤ 255 then
    some (digitsVal (stripSign s))
  else none

/-- Decimal rendering of a number, as the `{}` format of `write!` emits it. -/
def decBytes (n : Nat) : List Nat :=
  (Nat.toDigits 10 n).map Char.toNat

/-- Lowercase hex digit character code for a nibble, as `{:x}` emits it. -/
def hexDigit (n : Nat) : Nat := if n < 10 then 48 + n else 87 + n

/-- Two lowercase hex digits, the `{:02x}` rendering of a byte. -/
def hex2 (v : Nat) : List Nat := [hexDigit (v / 16), hexDigit (v % 16)]

/-- One row of `Machine::dump`: the row label `i_`, sixteen ` xx` hex cells
(the cell at the program counter or stack pointer wrapped in the ANSI
reverse-video escapes `ESC [ 7 m` … `ESC [ m`), two spaces, then the ASCII
sidebar showing printable bytes (0x20–0x7e) verbatim and `.` otherwise. -/
def dumpRow (m : Machine) (i : Nat) : List Nat :=
  [hexDigit i, 95, 32]
  ++ List.flatten ((List.range 16).map fun j =>
      if 16 * i + j = m.pc ∨ 16 * i + j = m.stack then
        [32, 27, 91, 55, 109] ++ hex2 (m.mem (16 * i + j)) ++ [27, 91, 109]
      else
        32 :: hex2 (m.mem (16 * i + j)))
  ++ [32, 32]
  ++ ((List.range 16).map fun j =>
      if 32 ≤ m.mem (16 * i + j) ∧ m.mem (16 * i + j) ≤ 126 then
        m.mem (16 * i + j)
      else 46)
  ++ [10]

/-- `Machine::dump` rendered to bytes: the `pc:` and `stack:` lines, the
`_0`…`_f` column header, then the sixteen memory rows. -/
def dumpBytes (m : Machine) : List Nat :=
  [32, 32, 32, 112, 99, 58, 32] ++ decBytes m.pc ++ [10]
  ++ [115, 116, 97, 99, 107, 58, 32] ++ decBytes m.stack ++ [10]
  ++ [32, 32, 32] ++ List.flatten ((List.range 16).map fun j => [32, 95, hexDigit j]) ++ [10]
  ++ List.flatten ((List.range 16).map fun i => dumpRow m i)

/-- The shared tail of every fall-through arm of `Machine::step`:
`self.pc = self.pc.wrapping_add(1); Ok(Continue(()))`. -/
def stepNext (m : Machine) (io : IOState) : StepOutcome :=
  StepOutcome.ok StepFlow.cont { m with pc := (m.pc + 1) % 256 } io

/-- The `match code { … }` body of `Machine::step`, arm for arm and in the
source's order.  Opcode bytes appear as their ASCII codes:
`x`=120, `0`..`9`=48..57, `a`..`f`=97..102, `.`=46, `i`=105, `o`=111,
`:`=58, `'`=39, `"`=34, `@`=64, `(`=40, `)`=41, `+`=43, `-`=45, `*`=42,
`/`=47, `%`=37, `^`=94, `!`=33, `=`=61, `<`=60, `>`=62, `~`=126, `|`=124,
`&`=38, `X`=88, `g`=103, `j`=106, `l`=108, `s`=115. -/
def execOp (code : Nat) (m : Machine) (io : IOState) : StepOutcome :=
  -- halt
  if code = 120 then StepOutcome.ok StepFlow.brk m io
  -- constant numbers
  else if 48 ≤ code ∧ code ≤ 57 then stepNext (m.push (code - 48)) io
  else if 97 ≤ code ∧ code ≤ 102 then stepNext (m.push (code - 97 + 10)) io
  else if code = 46 then
    -- pop lo, pop hi; `hi << 4` on u8 truncates to `hi * 16 mod 256`
    let t1 := m.pop
    let t2 := t1.1.pop
    stepNext (t2.1.push ((t2.2 * 16) % 256 ||| t1.2)) io
  -- input/output
  else if code = 105 then
    let io1 : IOState := { io with output := io.output ++ [62, 32] }
    let r := readLine io1.input
    let io2 : IOState := { io1 with input := r.2 }
    match parseU8 (trimBytes r.1) with
    | some n => stepNext (m.push n) io2
    | none => StepOutcome.err IOError.invalidData m io2
  else if code = 111 then
    let t := m.pop
    stepNext t.1 { io with output := io.output ++ decBytes t.2 ++ [10] }
  else if code = 58 then
    match io.input with
    | [] => StepOutcome.err IOError.unexpectedEof m io
    | v :: rest => stepNext (m.push v) { io with input := rest }
  else if code = 39 then
    let t := m.pop
    stepNext t.1 { io with output := io.output ++ [t.2] }
  else if code = 34 then
    stepNext m { io with output := io.output ++ dumpBytes m ++ [10] }
  -- stack manipulation
  else if code = 64 then
    let t1 := m.pop
    let t2 := t1.1.pop
    stepNext ((t2.1.push t1.2).push t2.2) io
  else if code = 40 then
    let t := m.pop
    stepNext ((t.1.push t.2).push t.2) io
  else if code = 41 then
    stepNext (m.pop).1 io
  -- math
  else if code = 43 then
    let t1 := m.pop
    let t2 := t1.1.pop
    stepNext (t2.1.push ((t2.2 + t1.2) % 256)) io
  else if code = 45 then
    -- `wrapping_sub` on u8: add the two's complement of the subtrahend
    let t1 := m.pop
    let t2 := t1.1.pop
    stepNext (t2.1.push ((t2.2 + 256 - t1.2 % 256) % 256)) io
  else if code = 42 then
    let t1 := m.pop
    let t2 := t1.1.pop
    stepNext (t2.1.push ((t2.2 * t1.2) % 256)) io
  else if code = 47 then
    -- `wrapping_div` panics on a zero divisor
    let t1 := m.pop
    let t2 := t1.1.pop
    if t1.2 = 0 then StepOutcome.panic
    else stepNext (t2.1.push (t2.2 / t1.2)) io
  else if code = 37 then
    -- `wrapping_rem` panics on a zero divisor
    let t1 := m.pop
    let t2 := t1.1.pop
    if t1.2 = 0 then StepOutcome.panic
    else stepNext (t2.1.push (t2.2 % t1.2)) io
  else if code = 94 then
    let t1 := m.pop
    let t2 := t1.1.pop
    stepNext (t2.1.push ((t2.2 ^ t1.2) % 256)) io
  -- logical and comparison
  else if code = 33 then
    let t := m.pop
    stepNext (t.1.push (if t.2 = 0 then 1 else 0)) io
  else if code = 61 then
    let t1 := m.pop
    let t2 := t1.1.pop
    stepNext (t2.1.push (if t2.2 = t1.2 then 1 else 0)) io
  else if code = 60 then
    let t1 := m.pop
    let t2 := t1.1.pop
    stepNext (t2.1.push (if t2.2 < t1.2 then 1 else 0)) io
  else if code = 62 then
    let t1 := m.pop
    let t2 := t1.1.pop
    stepNext (t2.1.push (if t1.2 < t2.2 then 1 else 0)) io
  -- bitwise
  else if code = 126 then
    -- `!a` on u8 flips the eight low bits
    let t := m.pop
    stepNext (t.1.push (255 - t.2 % 256)) io
  else if code = 124 then
    let t1 := m.pop
    let t2 := t1.1.pop
    stepNext (t2.1.push (t2.2 ||| t1.2)) io
  else if code = 38 then
    let t1 := m.pop
    let t2 := t1.1.pop
    stepNext (t2.1.push (t2.2 &&& t1.2)) io
  else if code = 88 then
    let t1 := m.pop
    let t2 := t1.1.pop
    stepNext (t2.1.push (t2.2 ^^^ t1.2)) io
  -- control flow
  else if code = 103 then
    let t := m.pop
    StepOutcome.ok StepFlow.cont { t.1 with pc := t.2 } io
  else if code = 106 then
    let t1 := m.pop
    let t2 := t1.1.pop
    if t2.2 ≠ 0 then StepOutcome.ok StepFlow.cont { t2.1 with pc := t1.2 } io
    else stepNext t2.1 io
  -- memory access
  else if code = 108 then
    let t := m.pop
    stepNext (t.1.push (t.1.mem t.2)) io
  else if code = 115 then
    let t1 := m.pop
    let t2 := t1.1.pop
    stepNext { t2.1 with mem := Function.update t2.1.mem t1.2 t2.2 } io
  -- any unrecognized byte halts
  else StepOutcome.ok StepFlow.brk m io

/-- `Machine::step`: fetch the opcode byte fresh from memory at the program
counter, then dispatch on it. -/
def Machine.step (m : Machine) (io : IOState) : StepOutcome :=
  execOp (m.mem m.pc) m io

/-- The opcode bytes of the recognized instruction table, in the order of the
`match` arms of `Machine::step`; every other byte falls to the final halting
arm. -/
def recognizedOp (c : Nat) : Prop :=
  c = 120 ∨ (48 ≤ c ∧ c ≤ 57) ∨ (97 ≤ c ∧ c ≤ 102) ∨ c = 46 ∨ c = 105 ∨
  c = 111 ∨ c = 58 ∨ c = 39 ∨ c = 34 ∨ c = 64 ∨ c = 40 ∨ c = 41 ∨ c = 43 ∨
  c = 45 ∨ c = 42 ∨ c = 47 ∨ c = 37 ∨ c = 94 ∨ c = 33 ∨ c = 61 ∨ c = 60 ∨
  c = 62 ∨ c = 126 ∨ c = 124 ∨ c = 38 ∨ c = 88 ∨ c = 103 ∨ c = 106 ∨
  c = 108 ∨ c = 115

instance : DecidablePred recognizedOp := fun c => by
  unfold recognizedOp
  infer_instance

/-- Sixteen (or any number of) consecutive pushes. -/
def pushAll (m : Machine) (vs : List Nat) : Machine :=
  vs.foldl Machine.push m

/-- The machine left by `n` consecutive pops. -/
def popAllMachine : Nat → Machine → Machine
  | 0, m => m
  | n + 1, m => popAllMachine n (m.pop).1

/-- The values returned by `n` consecutive pops, first-popped-first. -/
def popAllValues : Nat → Machine → List Nat
  | 0, _ => []
  | n + 1, m => (m.pop).2 :: popAllValues n (m.pop).1

/-- A machine whose program is the single opcode `op` at address 0 and whose
stack holds `a` below `b` (so `b` is popped first): `b` at address 254,
`a` at address 255, stack pointer 253. -/
def testMachine (op b a : Nat) : Machine :=
  { mem := fun i => if i = 0 then op else if i = 254 then b else if i = 255 then a else 0
    pc := 0
    stack := 253 }

/-- The all-zero machine as `Machine::default` builds it. -/
def zeroMachine : Machine :=
  { mem := fun _ => 0, pc := 0, stack := 255 }

/-- Exhausted input stream, empty output stream. -/
def ioEmpty : IOState := { input := [], output := [] }

/-- Claim C1 (counterexample): with a zero divisor on top of the stack, the
`/` and `%` opcodes do not deliver their failure through `step`'s result
channel (`Ok`/`Err` of the `io::Result`): `u8::wrapping_div` and
`u8::wrapping_rem` panic, and the panic escapes that channel. -/
theorem div_by_zero_escapes_channel :
    (Machine.step (testMachine 47 0 5) ioEmpty).inChannel = false
    ∧ (Machine.step (testMachine 37 0 5) ioEmpty).inChannel = false :=
  ⟨rfl, rfl⟩

/-- Claim C1 (amended): for bytes `a`, `b`, the `/` and `%` opcodes pop `b`
then `a`; when `b ≠ 0` they deterministically push `a / b` (resp. `a % b`)
and continue through `step`'s result channel, and when `b = 0` the behaviour
is still deterministic but is a division-by-zero panic that escapes the
result channel rather than being delivered through it. -/
theorem div_rem_policy (m1 m2 : Machine) (io1 io2 : IOState) (a b : Nat)
    (hop1 : m1.mem m1.pc = 47)
    (hb1 : m1.mem ((m1.stack + 1) % 256) = b)
    (ha1 : m1.mem ((m1.stack + 2) % 256) = a)
    (hop2 : m2.mem m2.pc = 37)
    (hb2 : m2.mem ((m2.stack + 1) % 256) = b)
    (ha2 : m2.mem ((m2.stack + 2) % 256) = a) :
    Machine.step m1 io1 = (if b = 0 then StepOutcome.panic else
      StepOutcome.ok StepFlow.cont
        { mem := Function.update m1.mem ((m1.stack + 2) % 256) (a / b)
          pc := (m1.pc + 1) % 256
          stack := (m1.stack + 1) % 256 } io1)
    ∧ Machine.step m2 io2 = (if b = 0 then StepOutcome.panic else
      StepOutcome.ok StepFlow.cont
        { mem := Function.update m2.mem ((m2.stack + 2) % 256) (a % b)
          pc := (m2.pc + 1) % 256
          stack := (m2.stack + 1) % 256 } io2) := by
  constructor
  · show execOp (m1.mem m1.pc) m1 io1 = _
    rw [hop1]
    by_cases h0 : b = 0
    · simp [execOp, stepNext, Machine.pop, Machine.push, Nat.mod_add_mod,
        Nat.add_assoc, hb1, ha1, h0]
    · simp [execOp, stepNext, Machine.pop, Machine.push, Nat.mod_add_mod,
        Nat.add_assoc, hb1, ha1, h0, Machine.mk.injEq, StepOutcome.ok.injEq]
      omega
  · show execOp (m2.mem m2.pc) m2 io2 = _
    rw [hop2]
    by_cases h0 : b = 0
    · simp [execOp, stepNext, Machine.pop, Machine.push, Nat.mod_add_mod,
        Nat.add_assoc, hb2, ha2, h0]
    · simp [execOp, stepNext, Machine.pop, Machine.push, Nat.mod_add_mod,
        Nat.add_assoc, hb2, ha2, h0, Machine.mk.injEq, StepOutcome.ok.injEq]
      omega

/-- Claim C1 witness: dividing 7 by 2 pushes 3, taking 7 modulo 2 pushes 1. -/
theorem div_rem_policy_witness :
    Machine.step (testMachine 47 2 7) ioEmpty
      = StepOutcome.ok StepFlow.cont
          { mem := Function.update (testMachine 47 2 7).mem 255 3
            pc := 1, stack := 254 } ioEmpty
    ∧ Machine.step (testMachine 37 2 7) ioEmpty
      = StepOutcome.ok StepFlow.cont
          { mem := Function.update (testMachine 37 2 7).mem 255 1
            pc := 1, stack := 254 } ioEmpty :=
  div_rem_policy (testMachine 47 2 7) (testMachine 37 2 7) ioEmpty ioEmpty 7 2
    rfl rfl rfl rfl rfl rfl

/-- Claim C2: for bytes `a`, `b`, the opcodes `+`, `-`, `*`, `^` pop `b`
(the right operand) then `a` (the left operand) and push `(a OP b) mod 256`
(subtraction wraps as unsigned two's-complement, stated over `Int`); no
signed interpretation occurs anywhere. -/
theorem arith_ops_wrap_mod256 (m1 m2 m3 m4 : Machine)
    (io1 io2 io3 io4 : IOState) (a b : Nat) (ha : a < 256) (hb : b < 256)
    (hop1 : m1.mem m1.pc = 43)
    (hb1 : m1.mem ((m1.stack + 1) % 256) = b)
    (ha1 : m1.mem ((m1.stack + 2) % 256) = a)
    (hop2 : m2.mem m2.pc = 45)
    (hb2 : m2.mem ((m2.stack + 1) % 256) = b)
    (ha2 : m2.mem ((m2.stack + 2) % 256) = a)
    (hop3 : m3.mem m3.pc = 42)
    (hb3 : m3.mem ((m3.stack + 1) % 256) = b)
    (ha3 : m3.mem ((m3.stack + 2) % 256) = a)
    (hop4 : m4.mem m4.pc = 94)
    (hb4 : m4.mem ((m4.stack + 1) % 256) = b)
    (ha4 : m4.mem ((m4.stack + 2) % 256) = a) :
    Machine.step m1 io1 = StepOutcome.ok StepFlow.cont
      { mem := Function.update m1.mem ((m1.stack + 2) % 256) ((a + b) % 256)
        pc := (m1.pc + 1) % 256, stack := (m1.stack + 1) % 256 } io1
    ∧ Machine.step m2 io2 = StepOutcome.ok StepFlow.cont
      { mem := Function.update m2.mem ((m2.stack + 2) % 256)
          ((((a : Int) - (b : Int)) % 256).toNat)
        pc := (m2.pc + 1) % 256, stack := (m2.stack + 1) % 256 } io2
    ∧ Machine.step m3 io3 = StepOutcome.ok StepFlow.cont
      { mem := Function.update m3.mem ((m3.stack + 2) % 256) ((a * b) % 256)
        pc := (m3.pc + 1) % 256, stack := (m3.stack + 1) % 256 } io3
    ∧ Machine.step m4 io4 = StepOutcome.ok StepFlow.cont
      { mem := Function.update m4.mem ((m4.stack + 2) % 256) ((a ^ b) % 256)
        pc := (m4.pc + 1) % 256, stack := (m4.stack + 1) % 256 } io4 := by
  refine ⟨?_, ?_, ?_, ?_⟩
  · show execOp (m1.mem m1.pc) m1 io1 = _
    rw [hop1]
    simp [execOp, stepNext, Machine.pop, Machine.push, Nat.mod_add_mod,
      Nat.add_assoc, hb1, ha1, Machine.mk.injEq, StepOutcome.ok.injEq]
    omega
  · show execOp (m2.mem m2.pc) m2 io2 = _
    rw [hop2, show (((a : Int) - (b : Int)) % 256).toNat
        = (a + 256 - b % 256) % 256 from by omega]
    simp [execOp, stepNext, Machine.pop, Machine.push, Nat.mod_add_mod,
      Nat.add_assoc, hb2, ha2, Machine.mk.injEq, StepOutcome.ok.injEq]
    omega
  · show execOp (m3.mem m3.pc) m3 io3 = _
    rw [hop3]
    simp [execOp, stepNext, Machine.pop, Machine.push, Nat.mod_add_mod,
      Nat.add_assoc, hb3, ha3, Machine.mk.injEq, StepOutcome.ok.injEq]
    omega
  · show execOp (m4.mem m4.pc) m4 io4 = _
    rw [hop4]
    simp [execOp, stepNext, Machine.pop, Machine.push, Nat.mod_add_mod,
      Nat.add_assoc, hb4, ha4, Machine.mk.injEq, StepOutcome.ok.injEq]
    omega

/-- Claim C2 witness: with 250 below 10 on the stack, `+` pushes 4, `-`
pushes 240, `*` pushes 196 and `^` pushes 0. -/
theorem arith_ops_wrap_mod256_witness :
    Machine.step (testMachine 43 10 250) ioEmpty
      = StepOutcome.ok StepFlow.cont
          { mem := Function.update (testMachine 43 10 250).mem 255 4
            pc := 1, stack := 254 } ioEmpty
    ∧ Machine.step (testMachine 45 10 250) ioEmpty
      = StepOutcome.ok StepFlow.cont
          { mem := Function.update (testMachine 45 10 250).mem 255 240
            pc := 1, stack := 254 } ioEmpty
    ∧ Machine.step (testMachine 42 10 250) ioEmpty
      = StepOutcome.ok StepFlow.cont
          { mem := Function.update (testMachine 42 10 250).mem 255 196
            pc := 1, stack := 254 } ioEmpty
    ∧ Machine.step (testMachine 94 10 250) ioEmpty
      = StepOutcome.ok StepFlow.cont
          { mem := Function.update (testMachine 94 10 250).mem 255 0
            pc := 1, stack := 254 } ioEmpty :=
  arith_ops_wrap_mod256 (testMachine 43 10 250) (testMachine 45 10 250)
    (testMachine 42 10 250) (testMachine 94 10 250)
    ioEmpty ioEmpty ioEmpty ioEmpty 250 10 (by norm_num) (by norm_num)
    rfl rfl rfl rfl rfl rfl rfl rfl rfl rfl rfl rfl

/-- Claim C3: a machine whose current opcode byte is not in the recognized
table halts exactly as one whose current opcode is `x` (120) does: both
return `Ok(Break)` with the machine and the streams untouched. -/
theorem unknown_opcode_halts (m1 m2 : Machine) (io1 io2 : IOState)
    (h1 : ¬ recognizedOp (m1.mem m1.pc)) (h2 : m2.mem m2.pc = 120) :
    Machine.step m1 io1 = StepOutcome.ok StepFlow.brk m1 io1
    ∧ Machine.step m2 io2 = StepOutcome.ok StepFlow.brk m2 io2 := by
  constructor
  · show execOp (m1.mem m1.pc) m1 io1 = _
    unfold recognizedOp at h1
    simp only [not_or] at h1
    obtain ⟨n1, n2, n3, n4, n5, n6, n7, n8, n9, n10, n11, n12, n13, n14, n15,
      n16, n17, n18, n19, n20, n21, n22, n23, n24, n25, n26, n27, n28, n29,
      n30⟩ := h1
    unfold execOp
    rw [if_neg n1, if_neg n2, if_neg n3, if_neg n4, if_neg n5, if_neg n6,
      if_neg n7, if_neg n8, if_neg n9, if_neg n10, if_neg n11, if_neg n12,
      if_neg n13, if_neg n14, if_neg n15, if_neg n16, if_neg n17, if_neg n18,
      if_neg n19, if_neg n20, if_neg n21, if_neg n22, if_neg n23, if_neg n24,
      if_neg n25, if_neg n26, if_neg n27, if_neg n28, if_neg n29, if_neg n30]
  · show execOp (m2.mem m2.pc) m2 io2 = _
    rw [h2]
    rfl

/-- Claim C3 witness: the unrecognized byte `q` (113) and the halt opcode
`x` (120) both stop execution with their machines untouched. -/
theorem unknown_opcode_halts_witness :
    Machine.step (testMachine 113 0 0) ioEmpty
      = StepOutcome.ok StepFlow.brk (testMachine 113 0 0) ioEmpty
    ∧ Machine.step (testMachine 120 0 0) ioEmpty
      = StepOutcome.ok StepFlow.brk (testMachine 120 0 0) ioEmpty :=
  unknown_opcode_halts (testMachine 113 0 0) (testMachine 120 0 0)
    ioEmpty ioEmpty (by decide) rfl

/-- Claim C4: `g` pops `addr` and sets the program counter to it with no
auto-increment; `j` pops `addr` then `cond`, jumps to `addr` without
auto-increment when `cond ≠ 0`, and otherwise falls through to the normal
wrapping increment. -/
theorem jump_semantics (mg mj : Machine) (iog ioj : IOState) (p c : Nat)
    (hg : mg.mem mg.pc = 103)
    (hgp : mg.mem ((mg.stack + 1) % 256) = p)
    (hj : mj.mem mj.pc = 106)
    (hjp : mj.mem ((mj.stack + 1) % 256) = p)
    (hjc : mj.mem ((mj.stack + 2) % 256) = c) :
    Machine.step mg iog = StepOutcome.ok StepFlow.cont
      { mg with pc := p, stack := (mg.stack + 1) % 256 } iog
    ∧ Machine.step mj ioj = StepOutcome.ok StepFlow.cont
      { mj with
        pc := (if c = 0 then (mj.pc + 1) % 256 else p)
        stack := (mj.stack + 2) % 256 } ioj := by
  constructor
  · show execOp (mg.mem mg.pc) mg iog = _
    rw [hg]
    simp [execOp, Machine.pop, hgp]
  · show execOp (mj.mem mj.pc) mj ioj = _
    rw [hj]
    by_cases hc : c = 0
    · simp [execOp, stepNext, Machine.pop, Nat.mod_add_mod, Nat.add_assoc,
        hjp, hjc, hc, Machine.mk.injEq, StepOutcome.ok.injEq]
    · simp [execOp, stepNext, Machine.pop, Nat.mod_add_mod, Nat.add_assoc,
        hjp, hjc, hc, Machine.mk.injEq, StepOutcome.ok.injEq]

/-- Claim C4 witness: `g` with 7 on the stack jumps to 7; `j` with condition
5 jumps to 7, and with condition 0 falls through to the incremented program
counter. -/
theorem jump_semantics_witness :
    Machine.step (testMachine 103 7 0) ioEmpty = StepOutcome.ok StepFlow.cont
      { (testMachine 103 7 0) with pc := 7, stack := 254 } ioEmpty
    ∧ Machine.step (testMachine 106 7 5) ioEmpty = StepOutcome.ok StepFlow.cont
      { (testMachine 106 7 5) with pc := 7, stack := 255 } ioEmpty
    ∧ Machine.step (testMachine 106 7 0) ioEmpty = StepOutcome.ok StepFlow.cont
      { (testMachine 106 7 0) with pc := 1, stack := 255 } ioEmpty :=
  ⟨(jump_semantics (testMachine 103 7 0) (testMachine 106 7 5)
      ioEmpty ioEmpty 7 5 rfl rfl rfl rfl rfl).1,
   (jump_semantics (testMachine 103 7 0) (testMachine 106 7 5)
      ioEmpty ioEmpty 7 5 rfl rfl rfl rfl rfl).2,
   (jump_semantics (testMachine 103 7 0) (testMachine 106 7 0)
      ioEmpty ioEmpty 7 0 rfl rfl rfl rfl rfl).2⟩

/-- Claim C5 (counterexample): an input line of 257 bytes does not yield a
machine at all: `m.mem[..buf.len()]` with `buf.len() = 257` on a 256-byte
array panics, so `Machine::from` produces nothing (modelled as `none`). -/
theorem from_overlong_line_panics :
    Machine.fromBytes (List.replicate 257 49) = none := by
  unfold Machine.fromBytes
  rw [List.length_replicate, if_neg (by norm_num)]

/-- Claim C5 (amended): for every input line of at most 256 bytes,
constructing a machine from it succeeds and yields memory whose addresses
`0..len` hold the line's raw bytes verbatim and whose remaining addresses
are zero, with `program_counter = 0` and `stack_pointer = 0xFF`; longer
lines make the construction panic instead. -/
theorem from_line_loads (buf : List Nat) (mm : Machine)
    (h : buf.length ≤ 256) (hm : Machine.fromBytes buf = some mm) :
    (Machine.fromBytes buf).isSome = true
    ∧ (∀ i, i < buf.length → mm.mem i = buf.getD i 0)
    ∧ (∀ i, buf.length ≤ i → mm.mem i = 0)
    ∧ mm.pc = 0 ∧ mm.stack = 255 := by
  unfold Machine.fromBytes at hm ⊢
  rw [if_pos h] at hm ⊢
  injection hm with hm'
  subst hm'
  refine ⟨rfl, ?_, ?_, rfl, rfl⟩
  · intro i hi
    simp [hi]
  · intro i hi
    simp [Nat.not_lt.mpr hi]

/-- The machine loaded from the three-byte line `1o\n`. -/
def lineMachine : Machine :=
  { mem := fun i => if i < 3 then [49, 111, 10].getD i 0 else 0
    pc := 0
    stack := 255 }

/-- Claim C5 witness: loading the line `1o\n` puts bytes 49, 111, 10 at
addresses 0, 1, 2, leaves address 7 zero, and initializes `pc = 0`,
`stack = 255`. -/
theorem from_line_loads_witness :
    (Machine.fromBytes [49, 111, 10]).isSome = true
    ∧ lineMachine.mem 0 = 49
    ∧ lineMachine.mem 1 = 111
    ∧ lineMachine.mem 2 = 10
    ∧ lineMachine.mem 7 = 0
    ∧ lineMachine.pc = 0
    ∧ lineMachine.stack = 255 :=
  have T := from_line_loads [49, 111, 10] lineMachine (by norm_num) rfl
  ⟨T.1, T.2.1 0 (by norm_num), T.2.1 1 (by norm_num), T.2.1 2 (by norm_num),
    T.2.2.1 7 (by norm_num), T.2.2.2.1, T.2.2.2.2⟩

/-- Pushing a list of values folds `Machine::push` over it from the left. -/
theorem pushAll_cons (m : Machine) (v : Nat) (ws : List Nat) :
    pushAll m (v :: ws) = pushAll (m.push v) ws := rfl

/-- What a run of pushes does when it does not wrap: the stack pointer moves
down by the number of values, the window just below the starting pointer
holds the pushed values (deepest push at the lowest address), and every
address above the starting pointer is untouched. -/
theorem pushAll_spec (vs : List Nat) (m : Machine)
    (hlen : vs.length ≤ m.stack) (hst : m.stack < 256) :
    (pushAll m vs).stack = m.stack - vs.length
    ∧ (∀ a, m.stack - vs.length < a → a ≤ m.stack →
        (pushAll m vs).mem a = vs.getD (m.stack - a) 0)
    ∧ (∀ a, m.stack < a → (pushAll m vs).mem a = m.mem a) := by
  induction vs generalizing m with
  | nil =>
    refine ⟨by simp [pushAll], ?_, fun a h1 => rfl⟩
    intro a h1 h2
    simp only [List.length_nil, Nat.sub_zero] at h1
    omega
  | cons v ws ih =>
    simp only [List.length_cons] at hlen
    have hpstack : (m.push v).stack = m.stack - 1 := by
      simp only [Machine.push]
      omega
    have ih' := ih (m.push v) (by rw [hpstack]; omega) (by rw [hpstack]; omega)
    simp only [hpstack] at ih'
    rw [pushAll_cons]
    refine ⟨?_, ?_, ?_⟩
    · rw [ih'.1]
      simp only [List.length_cons]
      omega
    · intro a h1 h2
      simp only [List.length_cons] at h1
      rcases Nat.lt_or_ge a m.stack with hlt | hge
      · rw [ih'.2.1 a (by omega) (by omega)]
        have hidx : m.stack - a = (m.stack - 1 - a) + 1 := by omega
        rw [hidx, List.getD_cons_succ]
      · have ha : a = m.stack := by omega
        subst ha
        rw [ih'.2.2 m.stack (by omega)]
        simp [Machine.push]
    · intro a h1
      rw [ih'.2.2 a (by omega)]
      simp only [Machine.push]
      rw [Function.update_noteq (by omega)]

/-- Each pop moves the stack pointer up by one, wrapping modulo 256. -/
theorem popAllMachine_stack : ∀ (n : Nat) (m : Machine), m.stack < 256 →
    (popAllMachine n m).stack = (m.stack + n) % 256 := by
  intro n
  induction n with
  | zero =>
    intro m hm
    simp [popAllMachine, Nat.mod_eq_of_lt hm]
  | succ k ih =>
    intro m hm
    show (popAllMachine k (m.pop).1).stack = _
    have hp : (m.pop).1.stack = (m.stack + 1) % 256 := rfl
    rw [ih (m.pop).1 (by rw [hp]; omega), hp, Nat.mod_add_mod]
    omega

/-- Claim C6: push writes at the current stack address and then decrements
the stack pointer modulo 256; pop increments it modulo 256 before reading;
with the stack pointer at `0xFF`, sixteen consecutive pushes followed by
sixteen pops restore the pointer to `0xFF` and return the pushed values in
reverse order; neither boundary has any overflow or underflow detection
(the pointer arithmetic is always the same wrapping formula). -/
theorem stack_roundtrip (m : Machine) (h : m.stack = 255)
    (v0 v1 v2 v3 v4 v5 v6 v7 v8 v9 v10 v11 v12 v13 v14 v15 : Nat)
    (m2 : Machine) (w : Nat) :
    popAllValues 16 (pushAll m [v0, v1, v2, v3, v4, v5, v6, v7, v8, v9, v10,
        v11, v12, v13, v14, v15])
      = [v0, v1, v2, v3, v4, v5, v6, v7, v8, v9, v10, v11, v12, v13, v14,
         v15].reverse
    ∧ (popAllMachine 16 (pushAll m [v0, v1, v2, v3, v4, v5, v6, v7, v8, v9,
        v10, v11, v12, v13, v14, v15])).stack = 255
    ∧ (m2.push w).stack = (m2.stack + 255) % 256
    ∧ (m2.push w).mem m2.stack = w
    ∧ (m2.pop).1.stack = (m2.stack + 1) % 256
    ∧ (m2.pop).2 = m2.mem ((m2.stack + 1) % 256) := by
  have hC := pushAll_spec [v0, v1, v2, v3, v4, v5, v6, v7, v8, v9, v10, v11,
    v12, v13, v14, v15] m (by simp [h]) (by omega)
  rw [h] at hC
  set P := pushAll m [v0, v1, v2, v3, v4, v5, v6, v7, v8, v9, v10, v11, v12,
    v13, v14, v15] with hP
  have hC1 : P.stack = 239 := by
    rw [hC.1]
    simp
  refine ⟨?_, ?_, rfl, by simp [Machine.push], rfl, rfl⟩
  · simp only [popAllValues, Machine.pop, hC1]
    norm_num
    rw [hC.2.1 240 (by norm_num) (by norm_num), hC.2.1 241 (by norm_num) (by norm_num),
      hC.2.1 242 (by norm_num) (by norm_num), hC.2.1 243 (by norm_num) (by norm_num),
      hC.2.1 244 (by norm_num) (by norm_num), hC.2.1 245 (by norm_num) (by norm_num),
      hC.2.1 246 (by norm_num) (by norm_num), hC.2.1 247 (by norm_num) (by norm_num),
      hC.2.1 248 (by norm_num) (by norm_num), hC.2.1 249 (by norm_num) (by norm_num),
      hC.2.1 250 (by norm_num) (by norm_num), hC.2.1 251 (by norm_num) (by norm_num),
      hC.2.1 252 (by norm_num) (by norm_num), hC.2.1 253 (by norm_num) (by norm_num),
      hC.2.1 254 (by norm_num) (by norm_num), hC.2.1 255 (by norm_num) (by norm_num)]
    simp
  · rw [popAllMachine_stack 16 P (by rw [hC1]; omega), hC1]

/-- Claim C6 witness: pushing 1..16 from a fresh machine and popping sixteen
times returns 16..1 and restores the pointer to 255; a pop at pointer 255
wraps to 0 and a push then moves the pointer down from 255 to 254. -/
theorem stack_roundtrip_witness :
    popAllValues 16 (pushAll zeroMachine [1, 2, 3, 4, 5, 6, 7, 8, 9, 10, 11,
        12, 13, 14, 15, 16])
      = [1, 2, 3, 4, 5, 6, 7, 8, 9, 10, 11, 12, 13, 14, 15, 16].reverse
    ∧ (popAllMachine 16 (pushAll zeroMachine [1, 2, 3, 4, 5, 6, 7, 8, 9, 10,
        11, 12, 13, 14, 15, 16])).stack = 255
    ∧ (zeroMachine.push 9).stack = 254
    ∧ (zeroMachine.push 9).mem 255 = 9
    ∧ (zeroMachine.pop).1.stack = 0
    ∧ (zeroMachine.pop).2 = 0 :=
  stack_roundtrip zeroMachine rfl 1 2 3 4 5 6 7 8 9 10 11 12 13 14 15 16
    zeroMachine 9

/-- Claim C7: the opcode byte is fetched fresh from memory at the program
counter on every step, so `s` can write into the executing code region:
executing `s` with address `p` under value `v` on the stack stores `v` at
`p` and continues, leaving memory whose byte at `p` is `v`; and any machine
whose program counter is `p` and whose memory holds `v` at `p` dispatches
on `v` as its opcode. -/
theorem store_then_fetch (m : Machine) (io : IOState) (p v : Nat)
    (hop : m.mem m.pc = 115)
    (hp : m.mem ((m.stack + 1) % 256) = p)
    (hv : m.mem ((m.stack + 2) % 256) = v) :
    Machine.step m io = StepOutcome.ok StepFlow.cont
      { mem := Function.update m.mem p v
        pc := (m.pc + 1) % 256
        stack := (m.stack + 2) % 256 } io
    ∧ Function.update m.mem p v p = v
    ∧ ∀ (m2 : Machine) (io2 : IOState), m2.pc = p → m2.mem p = v →
        Machine.step m2 io2 = execOp v m2 io2 := by
  refine ⟨?_, ?_, ?_⟩
  · show execOp (m.mem m.pc) m io = _
    rw [hop]
    simp [execOp, stepNext, Machine.pop, Nat.mod_add_mod, Nat.add_assoc,
      hp, hv, Machine.mk.injEq, StepOutcome.ok.injEq]
  · simp
  · intro m2 io2 h1 h2
    show execOp (m2.mem m2.pc) m2 io2 = _
    rw [h1, h2]

/-- Claim C7 witness: `s` with address 2 and value 113 stores 113 at
address 2, and the stored byte is what a fetch at address 2 reads. -/
theorem store_then_fetch_witness :
    Machine.step (testMachine 115 2 113) ioEmpty = StepOutcome.ok StepFlow.cont
      { mem := Function.update (testMachine 115 2 113).mem 2 113
        pc := 1
        stack := 255 } ioEmpty
    ∧ Function.update (testMachine 115 2 113).mem 2 113 2 = 113 :=
  ⟨(store_then_fetch (testMachine 115 2 113) ioEmpty 2 113 rfl rfl rfl).1,
   (store_then_fetch (testMachine 115 2 113) ioEmpty 2 113 rfl rfl rfl).2.1⟩

/-- Claim C8: `i` appends the prompt `"> "` to the output, reads one line
from the input, and parses its trimmed text as an unsigned decimal integer:
on success the (necessarily in-range, `n ≤ 255`) value is pushed and
execution continues; on failure `step` returns an error through the same
`Err` channel that stream failures use. -/
theorem input_parse_pushes (m : Machine) (io : IOState)
    (h : m.mem m.pc = 105) :
    (Machine.step m io =
      match parseU8 (trimBytes (readLine io.input).1) with
      | some n => StepOutcome.ok StepFlow.cont
          { mem := Function.update m.mem m.stack n
            pc := (m.pc + 1) % 256
            stack := (m.stack + 255) % 256 }
          { input := (readLine io.input).2, output := io.output ++ [62, 32] }
      | none => StepOutcome.err IOError.invalidData m
          { input := (readLine io.input).2, output := io.output ++ [62, 32] })
    ∧ (∀ s n, parseU8 s = some n → n ≤ 255) := by
  constructor
  · show execOp (m.mem m.pc) m io = _
    rw [h]
    cases hp : parseU8 (trimBytes (readLine io.input).1) with
    | none => simp [execOp, stepNext, Machine.push, hp]
    | some n => simp [execOp, stepNext, Machine.push, hp]
  · intro s n hp
    unfold parseU8 at hp
    split at hp
    · rename_i hc
      injection hp with hp'
      subst hp'
      exact hc.2.2
    · exact absurd hp (by simp)

/-- Claim C8 witness: with input `7\n`, `i` prints the prompt, consumes the
line, and pushes 7. -/
theorem input_parse_pushes_witness :
    Machine.step (testMachine 105 0 0) { input := [55, 10], output := [] }
      = StepOutcome.ok StepFlow.cont
          { mem := Function.update (testMachine 105 0 0).mem 253 7
            pc := 1
            stack := 252 }
          { input := [], output := [62, 32] } :=
  (input_parse_pushes (testMachine 105 0 0)
    { input := [55, 10], output := [] } rfl).1

/-- Claim C9: `.` pops `lo`, pops `hi`, and pushes `((hi << 4) | lo) mod
256` (the `u8` shift truncates; for the nibble values the digit opcodes
push this is exactly `(hi << 4) | lo`). -/
theorem nibble_combine (m : Machine) (io : IOState) (hi lo : Nat)
    (hhi : hi < 256) (hlo : lo < 256)
    (hop : m.mem m.pc = 46)
    (hlo1 : m.mem ((m.stack + 1) % 256) = lo)
    (hhi1 : m.mem ((m.stack + 2) % 256) = hi) :
    Machine.step m io = StepOutcome.ok StepFlow.cont
      { mem := Function.update m.mem ((m.stack + 2) % 256)
          (((hi <<< 4) ||| lo) % 256)
        pc := (m.pc + 1) % 256
        stack := (m.stack + 1) % 256 } io := by
  have key : ((hi <<< 4) ||| lo) % 256 = (hi * 16) % 256 ||| lo := by
    have h16 : hi <<< 4 = hi * 16 := by
      rw [Nat.shiftLeft_eq]
    rw [h16]
    apply Nat.eq_of_testBit_eq
    intro i
    rw [show (256 : Nat) = 2 ^ 8 by norm_num]
    simp only [Nat.testBit_mod_two_pow, Nat.testBit_lor]
    rcases Nat.lt_or_ge i 8 with h8 | h8
    · simp [h8]
    · have hlo2 : lo < 2 ^ 8 := by simpa using hlo
      have hlo8 : lo.testBit i = false :=
        Nat.testBit_lt_two_pow
          (lt_of_lt_of_le hlo2 (Nat.pow_le_pow_right (by norm_num) h8))
      simp [Nat.not_lt.mpr h8, hlo8]
  show execOp (m.mem m.pc) m io = _
  rw [hop, key]
  simp [execOp, stepNext, Machine.pop, Machine.push, Nat.mod_add_mod,
    Nat.add_assoc, hlo1, hhi1, Machine.mk.injEq, StepOutcome.ok.injEq]
  omega

/-- Claim C9 witness: with 1 below 2 on the stack, `.` pushes
`0x12 = 18`. -/
theorem nibble_combine_witness :
    Machine.step (testMachine 46 2 1) ioEmpty = StepOutcome.ok StepFlow.cont
      { mem := Function.update (testMachine 46 2 1).mem 255 18
        pc := 1
        stack := 254 } ioEmpty :=
  nibble_combine (testMachine 46 2 1) ioEmpty 1 2 (by norm_num) (by norm_num)
    rfl rfl rfl

/-- Claim C10: whenever `step` returns halt (`Ok(Break)`), the machine state
and the streams are exactly what they were before the step: memory, program
counter and stack pointer are untouched and the program counter is not
advanced past the halting opcode. -/
theorem halt_preserves_state (m : Machine) (io : IOState)
    (m' : Machine) (io' : IOState)
    (h : Machine.step m io = StepOutcome.ok StepFlow.brk m' io') :
    m' = m ∧ io' = io := by
  unfold Machine.step execOp at h
  by_cases c1 : m.mem m.pc = 120
  case pos =>
    rw [if_pos c1] at h
    injection h with h1 h2 h3
    exact ⟨h2.symm, h3.symm⟩
  rw [if_neg c1] at h
  by_cases c2 : 48 ≤ m.mem m.pc ∧ m.mem m.pc ≤ 57
  case pos => rw [if_pos c2] at h; simp [stepNext] at h
  rw [if_neg c2] at h
  by_cases c3 : 97 ≤ m.mem m.pc ∧ m.mem m.pc ≤ 102
  case pos => rw [if_pos c3] at h; simp [stepNext] at h
  rw [if_neg c3] at h
  by_cases c4 : m.mem m.pc = 46
  case pos => rw [if_pos c4] at h; simp [stepNext] at h
  rw [if_neg c4] at h
  by_cases c5 : m.mem m.pc = 105
  case pos =>
    rw [if_pos c5] at h
    simp only [stepNext] at h
    split at h <;> simp_all
  rw [if_neg c5] at h
  by_cases c6 : m.mem m.pc = 111
  case pos => rw [if_pos c6] at h; simp [stepNext] at h
  rw [if_neg c6] at h
  by_cases c7 : m.mem m.pc = 58
  case pos =>
    rw [if_pos c7] at h
    simp only [stepNext] at h
    split at h <;> simp_all
  rw [if_neg c7] at h
  by_cases c8 : m.mem m.pc = 39
  case pos => rw [if_pos c8] at h; simp [stepNext] at h
  rw [if_neg c8] at h
  by_cases c9 : m.mem m.pc = 34
  case pos => rw [if_pos c9] at h; simp [stepNext] at h
  rw [if_neg c9] at h
  by_cases c10 : m.mem m.pc = 64
  case pos => rw [if_pos c10] at h; simp [stepNext] at h
  rw [if_neg c10] at h
  by_cases c11 : m.mem m.pc = 40
  case pos => rw [if_pos c11] at h; simp [stepNext] at h
  rw [if_neg c11] at h
  by_cases c12 : m.mem m.pc = 41
  case pos => rw [if_pos c12] at h; simp [stepNext] at h
  rw [if_neg c12] at h
  by_cases c13 : m.mem m.pc = 43
  case pos => rw [if_pos c13] at h; simp [stepNext] at h
  rw [if_neg c13] at h
  by_cases c14 : m.mem m.pc = 45
  case pos => rw [if_pos c14] at h; simp [stepNext] at h
  rw [if_neg c14] at h
  by_cases c15 : m.mem m.pc = 42
  case pos => rw [if_pos c15] at h; simp [stepNext] at h
  rw [if_neg c15] at h
  by_cases c16 : m.mem m.pc = 47
  case pos =>
    rw [if_pos c16] at h
    simp only [stepNext] at h
    split at h <;> simp_all
  rw [if_neg c16] at h
  by_cases c17 : m.mem m.pc = 37
  case pos =>
    rw [if_pos c17] at h
    simp only [stepNext] at h
    split at h <;> simp_all
  rw [if_neg c17] at h
  by_cases c18 : m.mem m.pc = 94
  case pos => rw [if_pos c18] at h; simp [stepNext] at h
  rw [if_neg c18] at h
  by_cases c19 : m.mem m.pc = 33
  case pos => rw [if_pos c19] at h; simp [stepNext] at h
  rw [if_neg c19] at h
  by_cases c20 : m.mem m.pc = 61
  case pos => rw [if_pos c20] at h; simp [stepNext] at h
  rw [if_neg c20] at h
  by_cases c21 : m.mem m.pc = 60
  case pos => rw [if_pos c21] at h; simp [stepNext] at h
  rw [if_neg c21] at h
  by_cases c22 : m.mem m.pc = 62
  case pos => rw [if_pos c22] at h; simp [stepNext] at h
  rw [if_neg c22] at h
  by_cases c23 : m.mem m.pc = 126
  case pos => rw [if_pos c23] at h; simp [stepNext] at h
  rw [if_neg c23] at h
  by_cases c24 : m.mem m.pc = 124
  case pos => rw [if_pos c24] at h; simp [stepNext] at h
  rw [if_neg c24] at h
  by_cases c25 : m.mem m.pc = 38
  case pos => rw [if_pos c25] at h; simp [stepNext] at h
  rw [if_neg c25] at h
  by_cases c26 : m.mem m.pc = 88
  case pos => rw [if_pos c26] at h; simp [stepNext] at h
  rw [if_neg c26] at h
  by_cases c27 : m.mem m.pc = 103
  case pos => rw [if_pos c27] at h; simp [stepNext] at h
  rw [if_neg c27] at h
  by_cases c28 : m.mem m.pc = 106
  case pos =>
    rw [if_pos c28] at h
    simp only [stepNext] at h
    split at h <;> simp_all
  rw [if_neg c28] at h
  by_cases c29 : m.mem m.pc = 108
  case pos => rw [if_pos c29] at h; simp [stepNext] at h
  rw [if_neg c29] at h
  by_cases c30 : m.mem m.pc = 115
  case pos => rw [if_pos c30] at h; simp [stepNext] at h
  rw [if_neg c30] at h
  injection h with h1 h2 h3
  exact ⟨h2.symm, h3.symm⟩

/-- Claim C10 witness: halting on the unrecognized byte 0 leaves the
machine and the streams unchanged. -/
theorem halt_preserves_state_witness :
    testMachine 0 0 0 = testMachine 0 0 0 ∧ ioEmpty = ioEmpty :=
  halt_preserves_state (testMachine 0 0 0) ioEmpty (testMachine 0 0 0)
    ioEmpty rfl
